import Mathlib

/-!
The node run_traj_control: connector, goal builder, telemetry handlers and entry point

A shallow embedding of `src/run_traj_control.cpp`.  The ROS runtime is an
oracle (`Ros`) that answers the calls the program makes on it; every call is
numbered in program order and recorded in a log, so that statements about
"which calls were made" are statements about that log.  Console output
(`ROS_INFO`, `ROS_DEBUG`, `ROS_FATAL`) and the set-up calls `ros::init` and
`ros::NodeHandle` are left out.
-/

namespace RunTrajControl

/-! ## Messages -/

/-- The `std_msgs/Header` field the program writes. -/
structure Header where
  stamp : ℚ
  deriving DecidableEq

/-- A `trajectory_msgs/JointTrajectoryPoint`; `time_from_start` is the number
of seconds handed to `ros::Duration`. -/
structure JointTrajectoryPoint where
  positions : List ℚ
  velocities : List ℚ
  accelerations : List ℚ
  effort : List ℚ
  time_from_start : ℚ
  deriving DecidableEq

/-- A `trajectory_msgs/JointTrajectory`. -/
structure JointTrajectory where
  header : Header
  joint_names : List String
  points : List JointTrajectoryPoint
  deriving DecidableEq

/-- A `control_msgs/FollowJointTrajectoryGoal`, restricted to the trajectory. -/
structure FollowJointTrajectoryGoal where
  trajectory : JointTrajectory
  deriving DecidableEq

/-- A default-constructed trajectory point. -/
def JointTrajectoryPoint.default : JointTrajectoryPoint :=
  { positions := [], velocities := [], accelerations := [], effort := [], time_from_start := 0 }

/-- A default-constructed goal, as declared in `main` before it is filled. -/
def FollowJointTrajectoryGoal.default : FollowJointTrajectoryGoal :=
  { trajectory := { header := { stamp := 0 }, joint_names := [], points := [] } }

/-! ## The runtime oracle and the call log -/

/-- One message delivery made by `spinOnce`: to `errorCallback` or to
`torqueCallback`, with the `data` vector of the message. -/
inductive Delivery (α : Type) where
  | error (data : List α)
  | torque (data : List α)

/-- Calls the program makes on its collaborators, in program order. -/
inductive Event where
  | waitForValid (timeout : ℚ) (valid : Bool)
  | newClient (address : String)
  | waitForServer (timeout : ℚ) (ready : Bool)
  | rosOk (alive : Bool)
  | sendGoal (goal : FollowJointTrajectoryGoal)
  | openFile (path : String)
  | subscribe (topic : String) (queue : Nat)
  | isDone (done : Bool)
  | spinOnce
  | closeFile (path : String)
  deriving DecidableEq

/-- Answers of the ROS runtime: `waitForServer k` is what the `k`-th call
(counted from 0) of `actionClient->waitForServer` returns, and likewise for
`ros::ok()`, `getState().isDone()` and the batch of messages the `k`-th
`ros::spinOnce()` dispatches. -/
structure Ros (α : Type) where
  waitForValid : Bool
  waitForServer : Nat → Bool
  ok : Nat → Bool
  isDone : Nat → Bool
  spinOnce : Nat → List (Delivery α)
  now : ℚ

/-- How many calls of each kind were made so far, and the log of all calls. -/
structure Node where
  probes : Nat
  oks : Nat
  dones : Nat
  spins : Nat
  log : List Event

/-- No call made yet. -/
def Node.fresh : Node :=
  { probes := 0, oks := 0, dones := 0, spins := 0, log := [] }

/-- Appends one call to the log. -/
def Node.record (n : Node) (e : Event) : Node :=
  { n with log := n.log ++ [e] }

/-- The call `actionClient->waitForServer(ros::Duration(2.0))`. -/
def Node.callWaitForServer {α : Type} (ros : Ros α) (n : Node) : Bool × Node :=
  (ros.waitForServer n.probes,
   { n with probes := n.probes + 1,
            log := n.log ++ [Event.waitForServer 2 (ros.waitForServer n.probes)] })

/-- The call `ros::ok()`. -/
def Node.callOk {α : Type} (ros : Ros α) (n : Node) : Bool × Node :=
  (ros.ok n.oks,
   { n with oks := n.oks + 1, log := n.log ++ [Event.rosOk (ros.ok n.oks)] })

/-- The call `ArmClient->getState().isDone()`. -/
def Node.callIsDone {α : Type} (ros : Ros α) (n : Node) : Bool × Node :=
  (ros.isDone n.dones,
   { n with dones := n.dones + 1, log := n.log ++ [Event.isDone (ros.isDone n.dones)] })

/-- Number of `waitForServer` calls in a log. -/
def probeCount : List Event → Nat
  | [] => 0
  | Event.waitForServer _ _ :: es => probeCount es + 1
  | _ :: es => probeCount es

/-- Whether a log holds a `sendGoal`. -/
def goalSent : List Event → Bool
  | [] => false
  | Event.sendGoal _ :: _ => true
  | _ :: es => goalSent es

/-- Whether a log holds an `open` of a file. -/
def fileOpened : List Event → Bool
  | [] => false
  | Event.openFile _ :: _ => true
  | _ :: es => fileOpened es

/-- Whether some `waitForServer` call in a log reported the server ready. -/
def probeReady : List Event → Bool
  | [] => false
  | Event.waitForServer _ true :: _ => true
  | _ :: es => probeReady es

/-! ## createArmClient -/

/-- The bound `max_iterations` of `createArmClient`. -/
def max_iterations : Nat := 3

/-- The message of the `std::runtime_error` thrown by `createArmClient`. -/
def serverNotAvailable : String :=
  "Error in createArmClient: arm controller action server not available"

/-- The loop
`while (!waitForServer(2.0) && ros::ok() && iterations < max_iterations) ++iterations;`
with the short-circuit order of `&&`: the probe is called first, `ros::ok()`
only after a failed probe, and the counter is compared last.  Returns the
final value of `iterations`. -/
def waitLoop {α : Type} (ros : Ros α) (maxIt : Nat) (iterations : Nat) (n : Node) :
    Nat × Node :=
  let p := n.callWaitForServer ros
  if p.1 then (iterations, p.2)
  else
    let o := p.2.callOk ros
    if o.1 then
      if iterations < maxIt then waitLoop ros maxIt (iterations + 1) o.2
      else (iterations, o.2)
    else (iterations, o.2)
termination_by maxIt - iterations

/-- The function `createArmClient`: the final `iterations`, the calls made,
and `Except.ok ()` for a normal return or `Except.error what` for the
`std::runtime_error` thrown. -/
def createArmClient {α : Type} (ros : Ros α) (n : Node) : Nat × Node × Except String Unit :=
  let n0 := n.record (Event.newClient "/arm_dynamic_controller/follow_joint_trajectory")
  let r := waitLoop ros max_iterations 0 n0
  if r.1 = max_iterations then (r.1, r.2, Except.error serverNotAvailable)
  else (r.1, r.2, Except.ok ())

/-- The outcome of `createArmClient` called first thing on a fresh node. -/
def connect {α : Type} (ros : Ros α) : Except String Unit :=
  (createArmClient ros Node.fresh).2.2

/-- The number of readiness probes `createArmClient` makes. -/
def connectProbes {α : Type} (ros : Ros α) : Nat :=
  probeCount (createArmClient ros Node.fresh).2.1.log

/-- The value of `iterations` when the loop of `createArmClient` ends. -/
def connectIterations {α : Type} (ros : Ros α) : Nat :=
  (createArmClient ros Node.fresh).1

/-- An oracle given by its probe and liveness answers, with a valid clock and
an action that is done at once. -/
def Ros.ofProbes (probe ok : Nat → Bool) : Ros Unit :=
  { waitForValid := true, waitForServer := probe, ok := ok,
    isDone := fun _ => true, spinOnce := fun _ => [], now := 0 }

/-! ## waypoints_arm_goal -/

/-- The call `v.resize(n)` of `std::vector`: the first `n` elements are kept
and value-initialised elements `d` fill up to `n`. -/
def resize {β : Type} (v : List β) (n : Nat) (d : β) : List β :=
  v.take n ++ List.replicate (n - v.length) d

/-- The update `v[i] = f(v[i])` of one element in place. -/
def modifyAt {β : Type} (f : β → β) : List β → Nat → List β
  | [], _ => []
  | x :: xs, 0 => f x :: xs
  | x :: xs, i + 1 => x :: modifyAt f xs i

/-- Applies `f` to `goal.trajectory.points[index]`. -/
def onPoint (goal : FollowJointTrajectoryGoal) (index : Nat)
    (f : JointTrajectoryPoint → JointTrajectoryPoint) : FollowJointTrajectoryGoal :=
  { goal with trajectory :=
      { goal.trajectory with points := modifyAt f goal.trajectory.points index } }

/-- The statement `goal.trajectory.joint_names.push_back(name)`. -/
def pushJointName (goal : FollowJointTrajectoryGoal) (name : String) :
    FollowJointTrajectoryGoal :=
  { goal with trajectory :=
      { goal.trajectory with joint_names := goal.trajectory.joint_names ++ [name] } }

/-- The statement `goal.trajectory.points.resize(n)`. -/
def resizePoints (goal : FollowJointTrajectoryGoal) (n : Nat) : FollowJointTrajectoryGoal :=
  { goal with trajectory :=
      { goal.trajectory with
        points := resize goal.trajectory.points n JointTrajectoryPoint.default } }

/-- The statement `goal.trajectory.points[index].positions.resize(n)`. -/
def resizePositions (goal : FollowJointTrajectoryGoal) (index n : Nat) :
    FollowJointTrajectoryGoal :=
  onPoint goal index (fun p => { p with positions := resize p.positions n 0 })

/-- The statement `goal.trajectory.points[index].positions[j] = x`. -/
def setPosition (goal : FollowJointTrajectoryGoal) (index j : Nat) (x : ℚ) :
    FollowJointTrajectoryGoal :=
  onPoint goal index (fun p => { p with positions := p.positions.set j x })

/-- The statement `goal.trajectory.points[index].velocities.resize(n)`. -/
def resizeVelocities (goal : FollowJointTrajectoryGoal) (index n : Nat) :
    FollowJointTrajectoryGoal :=
  onPoint goal index (fun p => { p with velocities := resize p.velocities n 0 })

/-- The statement `goal.trajectory.points[index].velocities[j] = x`. -/
def setVelocity (goal : FollowJointTrajectoryGoal) (index j : Nat) (x : ℚ) :
    FollowJointTrajectoryGoal :=
  onPoint goal index (fun p => { p with velocities := p.velocities.set j x })

/-- The loop `for (int j = 0; j < 4; ++j) velocities[j] = 0.2;`. -/
def fillVelocities (goal : FollowJointTrajectoryGoal) (index : Nat) :
    FollowJointTrajectoryGoal :=
  (List.range 4).foldl (fun g j => setVelocity g index j 0.2) goal

/-- The statement `goal.trajectory.points[index].time_from_start = ros::Duration(t)`. -/
def setTimeFromStart (goal : FollowJointTrajectoryGoal) (index : Nat) (t : ℚ) :
    FollowJointTrajectoryGoal :=
  onPoint goal index (fun p => { p with time_from_start := t })

/-- The function `waypoints_arm_goal`, statement by statement, on the goal it
receives by reference. -/
def waypoints_arm_goal (goal : FollowJointTrajectoryGoal) : FollowJointTrajectoryGoal :=
  let goal := pushJointName goal "arm_1_joint"
  let goal := pushJointName goal "arm_2_joint"
  let goal := pushJointName goal "arm_3_joint"
  let goal := pushJointName goal "arm_4_joint"
  let goal := resizePoints goal 3
  -- first trajectory point
  let index := 0
  let goal := resizePositions goal index 4
  let goal := setPosition goal index 0 0.15
  let goal := setPosition goal index 1 (-0.90)
  let goal := setPosition goal index 2 (-2.52)
  let goal := setPosition goal index 3 1.64
  let goal := resizeVelocities goal index 4
  let goal := fillVelocities goal index
  let goal := setTimeFromStart goal index 8.0
  -- second trajectory point
  let index := index + 1
  let goal := resizePositions goal index 4
  let goal := setPosition goal index 0 1.57
  let goal := setPosition goal index 1 (-0.06)
  let goal := setPosition goal index 2 (-0.88)
  let goal := setPosition goal index 3 0.49
  let goal := resizeVelocities goal index 4
  let goal := fillVelocities goal index
  let goal := setTimeFromStart goal index 13.0
  -- third trajectory point
  let index := index + 1
  let goal := resizePositions goal index 4
  let goal := setPosition goal index 0 2.30
  let goal := setPosition goal index 1 0.82
  let goal := setPosition goal index 2 1.00
  let goal := setPosition goal index 3 1.69
  let goal := resizeVelocities goal index 4
  let goal := fillVelocities goal index
  let goal := setTimeFromStart goal index 17.0
  goal

/-! ## Telemetry handlers -/

/-- The value an `int` holds after arithmetic whose exact result is `z`:
32-bit two's complement.  (`error_cont++` at `INT_MAX` is undefined in ISO
C++; the targets the node is built for wrap.  In no case can an `int` hold
`2^31`.) -/
def wrapInt32 (z : Int) : Int :=
  (z + 2147483648) % 4294967296 - 2147483648

/-- The text `std::ostream << int` inserts with the default flags: the
decimal digits, with a leading minus sign for a negative value. -/
def renderInt : Int → List Char
  | Int.ofNat m => Nat.toDigits 10 m
  | Int.negSucc m => '-' :: Nat.toDigits 10 (m + 1)

/-- A `std::ofstream`: whether a file is open on it, and the bytes of that
file.  Constructed closed. -/
structure OFStream where
  is_open : Bool
  content : List Char

/-- The member `open(path)`: the file is truncated (the open is taken to
succeed). -/
def OFStream.open (_f : OFStream) : OFStream :=
  { is_open := true, content := [] }

/-- The member `close()`. -/
def OFStream.close (f : OFStream) : OFStream :=
  { f with is_open := false }

/-- The insertion `f << text`: appended when a file is open, nothing is
written otherwise. -/
def OFStream.write (f : OFStream) (text : List Char) : OFStream :=
  if f.is_open then { f with content := f.content ++ text } else f

/-- The globals `error_file`, `error_cont`, `torque_file`, `torque_cont` (the
vectors `error_msg` and `torque_msg` are never read or written). -/
structure Globals where
  error_file : OFStream
  error_cont : Int
  torque_file : OFStream
  torque_cont : Int

/-- The globals as initialised before `main` starts. -/
def Globals.initial : Globals :=
  { error_file := { is_open := false, content := [] }, error_cont := 0,
    torque_file := { is_open := false, content := [] }, torque_cont := 0 }

/-- Zero counters and both files open and empty: the globals when the
subscriptions start. -/
def Globals.opened : Globals :=
  { error_file := Globals.initial.error_file.open, error_cont := 0,
    torque_file := Globals.initial.torque_file.open, torque_cont := 0 }

/-- The loop `for (i = 0; i < msg->data.size(); i++) file << msg->data[i] << " ";`
where `render` is the text `std::ostream << double` inserts for a value.  (The
index is an `int`; a serialized message is shorter than `2^32` bytes, so it
holds fewer than `2^29` values and the index stays in range.) -/
def writeData {α : Type} (render : α → List Char) (f : OFStream) (data : List α) : OFStream :=
  data.foldl (fun f v => (f.write (render v)).write [' ']) f

/-- The function `errorCallback` on a message with the vector `data`. -/
def errorCallback {α : Type} (render : α → List Char) (data : List α) (g : Globals) : Globals :=
  let cont := wrapInt32 (g.error_cont + 1)
  let file := (g.error_file.write (renderInt cont)).write [' ']
  let file := writeData render file data
  let file := file.write ['\n']
  { g with error_cont := cont, error_file := file }

/-- The function `torqueCallback` on a message with the vector `data`. -/
def torqueCallback {α : Type} (render : α → List Char) (data : List α) (g : Globals) : Globals :=
  let cont := wrapInt32 (g.torque_cont + 1)
  let file := (g.torque_file.write (renderInt cont)).write [' ']
  let file := writeData render file data
  let file := file.write ['\n']
  { g with torque_cont := cont, torque_file := file }

/-- One delivery, dispatched to the handler subscribed to its topic. -/
def deliver {α : Type} (render : α → List Char) (g : Globals) : Delivery α → Globals
  | Delivery.error data => errorCallback render data g
  | Delivery.torque data => torqueCallback render data g

/-- An interleaved sequence of deliveries, handled in order. -/
def deliverAll {α : Type} (render : α → List Char) (ds : List (Delivery α)) (g : Globals) :
    Globals :=
  ds.foldl (deliver render) g

/-- The messages of a delivery sequence that went to `errorCallback`. -/
def errorData {α : Type} : List (Delivery α) → List (List α)
  | [] => []
  | Delivery.error data :: ds => data :: errorData ds
  | Delivery.torque _ :: ds => errorData ds

/-- The messages of a delivery sequence that went to `torqueCallback`. -/
def torqueData {α : Type} : List (Delivery α) → List (List α)
  | [] => []
  | Delivery.error _ :: ds => torqueData ds
  | Delivery.torque data :: ds => data :: torqueData ds

/-! ### The text of a double -/

/-- Drops the zeros at the end of a digit string. -/
def stripZeros (ds : List Char) : List Char :=
  (ds.reverse.dropWhile (fun c => c == '0')).reverse

/-- For `0 < n < d`, the least `k` with `d ≤ n * 10 ^ k`; `0` when `d ≤ n`. -/
def decimalShift : Nat → Nat → Nat → Nat
  | 0, _, _ => 0
  | fuel + 1, n, d => if d ≤ n then 0 else decimalShift fuel (n * 10) d + 1

/-- The decimal exponent of `n / d`: the `e` with `10 ^ e ≤ n / d < 10 ^ (e + 1)`. -/
def decimalExponent (n d : Nat) : Int :=
  if d ≤ n then ((Nat.toDigits 10 (n / d)).length : Int) - 1
  else - (decimalShift d n d : Int)

/-- The quotient `n / d` rounded to the nearest integer, ties to even. -/
def roundHalfEven (n d : Nat) : Nat :=
  if d < 2 * (n % d) then n / d + 1
  else if 2 * (n % d) = d ∧ (n / d) % 2 = 1 then n / d + 1
  else n / d

/-- The value `n / d` scaled to six digits before the point, rounded: the six
significant digits of a value of decimal exponent `e`. -/
def sixDigits (n d : Nat) (e : Int) : Nat :=
  if e ≤ 5 then roundHalfEven (n * 10 ^ (5 - e).toNat) d
  else roundHalfEven n (d * 10 ^ (e - 5).toNat)

/-- The exponent of the scientific style: a sign and at least two digits. -/
def exponentText (e : Int) : List Char :=
  (if e < 0 then '-' else '+') ::
    (if e.natAbs < 10 then '0' :: Nat.toDigits 10 e.natAbs else Nat.toDigits 10 e.natAbs)

/-- The decimal point and the fraction digits, nothing when no digit is left. -/
def pointAndFraction (frac : List Char) : List Char :=
  if frac.isEmpty then [] else '.' :: frac

/-- The `%g` style for the six significant digits `m` and the decimal exponent
`e`: scientific when `e < -4` or `e ≥ 6`, fixed otherwise, trailing zeros of
the fraction removed. -/
def formatG (m : Nat) (e : Int) : List Char :=
  if e < -4 ∨ 6 ≤ e then
    (Nat.toDigits 10 m).take 1 ++ pointAndFraction (stripZeros ((Nat.toDigits 10 m).drop 1)) ++
      'e' :: exponentText e
  else if 0 ≤ e then
    (Nat.toDigits 10 m).take (e.toNat + 1) ++
      pointAndFraction (stripZeros ((Nat.toDigits 10 m).drop (e.toNat + 1)))
  else
    '0' :: '.' :: (List.replicate ((-e).toNat - 1) '0' ++ stripZeros (Nat.toDigits 10 m))

/-- The `%g` text, with precision 6, of the positive value `n / d`. -/
def renderPositive (n d : Nat) : List Char :=
  if sixDigits n d (decimalExponent n d) = 1000000 then formatG 100000 (decimalExponent n d + 1)
  else formatG (sixDigits n d (decimalExponent n d)) (decimalExponent n d)

/-- The text `std::ostream << double` inserts with the default flags
(precision 6, no `fixed` or `scientific`: the `%g` conversion) for a finite
double that holds the value `x`; zero is written `0`.  (The double `-0.0`,
written `-0`, and the non-finite doubles have no counterpart in `ℚ`.) -/
def renderDouble (x : ℚ) : List Char :=
  if x = 0 then ['0']
  else if x < 0 then '-' :: renderPositive x.num.natAbs x.den
  else renderPositive x.num.natAbs x.den

/-- The double that the literal `0.1` denotes. -/
def double_0_1 : ℚ := 3602879701896397 / 36028797018963968

/-- The double that the literal `0.2` denotes. -/
def double_0_2 : ℚ := 3602879701896397 / 18014398509481984

/-- The double that the literal `0.05` denotes. -/
def double_0_05 : ℚ := 3602879701896397 / 72057594037927936

/-- The messages `[0.1, 0.2]`, `[0.05]`, `[0.0, 0.0, 0.1]`. -/
def exampleMessages : List (List ℚ) :=
  [[double_0_1, double_0_2], [double_0_05], [0, 0, double_0_1]]

/-! ### Reading a log file back -/

/-- Splits a text at every newline; `cur` is the line being read. -/
def linesAux : List Char → List Char → List (List Char)
  | cur, [] => if cur.isEmpty then [] else [cur]
  | cur, c :: cs => if c = '\n' then cur :: linesAux [] cs else linesAux (cur ++ [c]) cs

/-- The lines of a text, without their newlines. -/
def textLines (text : List Char) : List (List Char) :=
  linesAux [] text

/-- Splits a line at whitespace; `cur` is the token being read. -/
def tokensAux : List Char → List Char → List (List Char)
  | cur, [] => if cur.isEmpty then [] else [cur]
  | cur, c :: cs =>
    if c.isWhitespace then
      if cur.isEmpty then tokensAux [] cs else cur :: tokensAux [] cs
    else tokensAux (cur ++ [c]) cs

/-- The whitespace-separated tokens of a line. -/
def tokens (line : List Char) : List (List Char) :=
  tokensAux [] line

/-- A rendering that reads back as one token: not empty, no whitespace. -/
def IsToken (w : List Char) : Prop :=
  w ≠ [] ∧ ∀ c ∈ w, c.isWhitespace = false

/-- The file `text` holds one line per message of `msgs`, and line `i`
(counted from 1) reads as the decimal index `i` followed by the renderings of
the values of message `i`, in order. -/
def Logged {α : Type} (render : α → List Char) (text : List Char) (msgs : List (List α)) : Prop :=
  (textLines text).length = msgs.length ∧
  ∀ (i : Nat) (m : List α), msgs[i]? = some m →
    (textLines text)[i]?.map tokens = some (Nat.toDigits 10 (i + 1) :: m.map render)

/-- The bytes the claimed format gives message number `i`: the decimal index
and the rendered values joined by single spaces, then a newline. -/
def joinedLine {α : Type} (render : α → List Char) (i : Nat) (m : List α) : List Char :=
  List.intercalate [' '] (Nat.toDigits 10 i :: m.map render) ++ ['\n']

/-- Message number `i` with a space after the decimal index and after every
rendered value. -/
def spacedBody {α : Type} (render : α → List Char) (i : Nat) (m : List α) : List Char :=
  Nat.toDigits 10 i ++ [' '] ++ (m.map (fun v => render v ++ [' '])).flatten

/-- The bytes the handlers write for message number `i`: the decimal index
and every rendered value, each followed by one space, then a newline. -/
def spacedLine {α : Type} (render : α → List Char) (i : Nat) (m : List α) : List Char :=
  spacedBody render i m ++ ['\n']

/-- The lines of messages numbered from `i + 1` on, one after the other. -/
def numbered {α : Type} (line : Nat → List α → List Char) : Nat → List (List α) → List Char
  | _, [] => []
  | i, m :: ms => line (i + 1) m ++ numbered line (i + 1) ms

/-! ## main -/

/-- The macro `EXIT_SUCCESS` of `<cstdlib>`. -/
def EXIT_SUCCESS : Int := 0

/-- The macro `EXIT_FAILURE` of `<cstdlib>`. -/
def EXIT_FAILURE : Int := 1

/-- How the process ends: `main` returns a status, or an exception leaves
`main` uncaught and `std::terminate` aborts the process. -/
inductive ProcessEnd where
  | returned (status : Int)
  | terminated (what : String)
  deriving DecidableEq

/-- The process ended with a failure (non-zero) status. -/
def ProcessEnd.failed : ProcessEnd → Bool
  | ProcessEnd.returned status => status != 0
  | ProcessEnd.terminated _ => true

/-- What a run of `main` did: the calls made, the globals, and how the
process ended (`none` while the wait loop is still running). -/
structure Run where
  node : Node
  globals : Globals
  ending : Option ProcessEnd

/-- The loop `while (!ArmClient->getState().isDone() && ros::ok()) ros::spinOnce();`
run for at most `fuel` iterations; the flag tells whether the loop was left. -/
def awaitCompletion {α : Type} (render : α → List Char) (ros : Ros α) :
    Nat → Node → Globals → Node × Globals × Bool
  | 0, n, g => (n, g, false)
  | fuel + 1, n, g =>
    let d := n.callIsDone ros
    if d.1 then (d.2, g, true)
    else
      let o := d.2.callOk ros
      if o.1 then
        let n1 := { o.2 with spins := o.2.spins + 1, log := o.2.log ++ [Event.spinOnce] }
        awaitCompletion render ros fuel n1 (deliverAll render (ros.spinOnce o.2.spins) g)
      else (o.2, g, true)

/-- The function `main`, with the wait loop bounded by `fuel`. -/
def main {α : Type} (render : α → List Char) (ros : Ros α) (fuel : Nat) : Run :=
  let n := Node.fresh.record (Event.waitForValid 10 ros.waitForValid)
  if !ros.waitForValid then
    { node := n, globals := Globals.initial, ending := some (ProcessEnd.returned EXIT_FAILURE) }
  else
    match createArmClient ros n with
    | (_, n, Except.error what) =>
      { node := n, globals := Globals.initial, ending := some (ProcessEnd.terminated what) }
    | (_, n, Except.ok _) =>
      let arm_goal := waypoints_arm_goal FollowJointTrajectoryGoal.default
      let arm_goal : FollowJointTrajectoryGoal :=
        { arm_goal with trajectory :=
            { arm_goal.trajectory with header := { stamp := ros.now + 1 } } }
      let n := n.record (Event.sendGoal arm_goal)
      let g := Globals.initial
      let g := { g with error_file := g.error_file.open }
      let n := n.record (Event.openFile "/tmp/error.data")
      let g := { g with torque_file := g.torque_file.open }
      let n := n.record (Event.openFile "/tmp/torques.data")
      let n := n.record (Event.subscribe "/arm_dynamic_controller/position_error" 1000)
      let n := n.record (Event.subscribe "/arm_dynamic_controller/torques" 1000)
      let w := awaitCompletion render ros fuel n g
      if w.2.2 then
        let g := { w.2.1 with error_file := w.2.1.error_file.close }
        let n := w.1.record (Event.closeFile "/tmp/error.data")
        let g := { g with torque_file := g.torque_file.close }
        let n := n.record (Event.closeFile "/tmp/torques.data")
        { node := n, globals := g, ending := some (ProcessEnd.returned EXIT_SUCCESS) }
      else { node := w.1, globals := w.2.1, ending := none }

/-! ## Vocabulary of the statements -/

/-- The first three probes all fail and the node is alive after each: the
probe budget is used up. -/
def Exhausts {α : Type} (ros : Ros α) : Prop :=
  ∀ k, k < 3 → ros.waitForServer k = false ∧ ros.ok k = true

/-- One of the first three probes reports the server ready, the probes before
it having failed with the node alive. -/
def ReadyWithin {α : Type} (ros : Ros α) : Prop :=
  ∃ k, k < 3 ∧ ros.waitForServer k = true ∧
    ∀ j, j < k → ros.waitForServer j = false ∧ ros.ok j = true

/-- One of the first three probes fails and `ros::ok()` then reports that the
process should stop, the probes before it having failed with the node alive. -/
def StoppedWithin {α : Type} (ros : Ros α) : Prop :=
  ∃ k, k < 3 ∧ ros.waitForServer k = false ∧ ros.ok k = false ∧
    ∀ j, j < k → ros.waitForServer j = false ∧ ros.ok j = true

/-- The time offsets of the waypoints of a goal, in order. -/
def offsets (goal : FollowJointTrajectoryGoal) : List ℚ :=
  goal.trajectory.points.map (fun p => p.time_from_start)

/-- The bytes the handlers append for the messages `ms` when the counter
stands at `c`. -/
def written {α : Type} (render : α → List Char) : Int → List (List α) → List Char
  | _, [] => []
  | c, m :: ms =>
    renderInt (wrapInt32 (c + 1)) ++ [' '] ++ (m.map (fun v => render v ++ [' '])).flatten ++
      ['\n'] ++ written render (wrapInt32 (c + 1)) ms

/-- The counter after `k` more messages. -/
def counted : Int → Nat → Int
  | c, 0 => c
  | c, k + 1 => counted (wrapInt32 (c + 1)) k

/-- The lines of messages numbered from `i + 1` on, without their newlines. -/
def bodies {α : Type} (render : α → List Char) : Nat → List (List α) → List (List Char)
  | _, [] => []
  | i, m :: ms => spacedBody render (i + 1) m :: bodies render (i + 1) ms

/-- A rendering of the unit value, used where messages carry no value. -/
def renderUnit (_v : Unit) : List Char := ['0']

/-- An oracle with a valid clock in which every probe fails, `ros::ok()`
reports from its first call on that the process should stop, and the action
is never done. -/
def Ros.stopped : Ros Unit :=
  { waitForValid := true, waitForServer := fun _ => false, ok := fun _ => false,
    isDone := fun _ => false, spinOnce := fun _ => [], now := 0 }

/-- An oracle whose clock never becomes valid. -/
def Ros.noClock : Ros Unit :=
  { waitForValid := false, waitForServer := fun _ => true, ok := fun _ => true,
    isDone := fun _ => true, spinOnce := fun _ => [], now := 0 }

/-! ## Properties of the connector -/

theorem probeCount_append (l r : List Event) :
    probeCount (l ++ r) = probeCount l + probeCount r := by
  induction l with
  | nil => simp [probeCount]
  | cons e es ih =>
    cases e <;> simp [probeCount, ih]
    omega

theorem goalSent_append (l r : List Event) :
    goalSent (l ++ r) = (goalSent l || goalSent r) := by
  induction l with
  | nil => simp [goalSent]
  | cons e es ih => cases e <;> simp [goalSent, ih]

theorem fileOpened_append (l r : List Event) :
    fileOpened (l ++ r) = (fileOpened l || fileOpened r) := by
  induction l with
  | nil => simp [fileOpened]
  | cons e es ih => cases e <;> simp [fileOpened, ih]

theorem exhausts_iff {α : Type} (ros : Ros α) :
    Exhausts ros ↔
      (ros.waitForServer 0 = false ∧ ros.ok 0 = true) ∧
      (ros.waitForServer 1 = false ∧ ros.ok 1 = true) ∧
      (ros.waitForServer 2 = false ∧ ros.ok 2 = true) := by
  constructor
  · intro h
    exact ⟨h 0 (by decide), h 1 (by decide), h 2 (by decide)⟩
  · rintro ⟨h0, h1, h2⟩ k hk
    interval_cases k
    · exact h0
    · exact h1
    · exact h2

/-- The outcome of `createArmClient` on a node that made no probe and no
liveness check yet, whatever its log. -/
theorem createArmClient_outcome {α : Type} (ros : Ros α) (n : Node)
    (hp : n.probes = 0) (ho : n.oks = 0) :
    (createArmClient ros n).2.2 =
      if (ros.waitForServer 0 = false ∧ ros.ok 0 = true) ∧
         (ros.waitForServer 1 = false ∧ ros.ok 1 = true) ∧
         (ros.waitForServer 2 = false ∧ ros.ok 2 = true)
      then Except.error serverNotAvailable else Except.ok () := by
  cases h0 : ros.waitForServer 0 <;> cases o0 : ros.ok 0 <;>
  cases h1 : ros.waitForServer 1 <;> cases o1 : ros.ok 1 <;>
  cases h2 : ros.waitForServer 2 <;> cases o2 : ros.ok 2 <;>
  cases h3 : ros.waitForServer 3 <;> cases o3 : ros.ok 3 <;>
  simp [createArmClient, waitLoop, Node.record, Node.callWaitForServer, Node.callOk,
    max_iterations, hp, ho, h0, h1, h2, h3, o0, o1, o2, o3]

/-- The final `iterations` of `createArmClient` is 3 exactly when the first
three probes fail with the node alive, and never more than 3. -/
theorem createArmClient_iterations {α : Type} (ros : Ros α) (n : Node)
    (hp : n.probes = 0) (ho : n.oks = 0) :
    ((createArmClient ros n).1 = 3 ↔
      (ros.waitForServer 0 = false ∧ ros.ok 0 = true) ∧
      (ros.waitForServer 1 = false ∧ ros.ok 1 = true) ∧
      (ros.waitForServer 2 = false ∧ ros.ok 2 = true)) ∧
    (createArmClient ros n).1 ≤ 3 := by
  cases h0 : ros.waitForServer 0 <;> cases o0 : ros.ok 0 <;>
  cases h1 : ros.waitForServer 1 <;> cases o1 : ros.ok 1 <;>
  cases h2 : ros.waitForServer 2 <;> cases o2 : ros.ok 2 <;>
  cases h3 : ros.waitForServer 3 <;> cases o3 : ros.ok 3 <;>
  simp [createArmClient, waitLoop, Node.record, Node.callWaitForServer, Node.callOk,
    max_iterations, hp, ho, h0, h1, h2, h3, o0, o1, o2, o3]

/-- What `createArmClient` adds to the log: at most 4 probes, no `sendGoal`
and no `open`. -/
theorem createArmClient_log {α : Type} (ros : Ros α) (n : Node)
    (hp : n.probes = 0) (ho : n.oks = 0) :
    probeCount (createArmClient ros n).2.1.log ≤ probeCount n.log + 4 ∧
    goalSent (createArmClient ros n).2.1.log = goalSent n.log ∧
    fileOpened (createArmClient ros n).2.1.log = fileOpened n.log := by
  cases h0 : ros.waitForServer 0 <;> cases o0 : ros.ok 0 <;>
  cases h1 : ros.waitForServer 1 <;> cases o1 : ros.ok 1 <;>
  cases h2 : ros.waitForServer 2 <;> cases o2 : ros.ok 2 <;>
  cases h3 : ros.waitForServer 3 <;> cases o3 : ros.ok 3 <;>
  simp [createArmClient, waitLoop, Node.record, Node.callWaitForServer, Node.callOk,
    max_iterations, hp, ho, h0, h1, h2, h3, o0, o1, o2, o3, probeCount_append,
    goalSent_append, fileOpened_append, probeCount, goalSent, fileOpened]

theorem connect_eq {α : Type} (ros : Ros α) [Decidable (Exhausts ros)] :
    connect ros = if Exhausts ros then Except.error serverNotAvailable else Except.ok () := by
  unfold connect
  rw [createArmClient_outcome ros Node.fresh rfl rfl]
  by_cases h : Exhausts ros
  · rw [if_pos h, if_pos ((exhausts_iff ros).1 h)]
  · rw [if_neg h, if_neg (fun h1 => h ((exhausts_iff ros).2 h1))]

/-- C1: with `ros::ok()` true throughout, `createArmClient` returns normally
when one of the first 3 probes reports the server ready, and throws the
"server not available" runtime error when none of the first 3 probes does. -/
theorem createArmClient_ready_or_unavailable {α : Type} (ros : Ros α)
    (halive : ∀ k, ros.ok k = true) :
    ((∃ k, k < 3 ∧ ros.waitForServer k = true) → connect ros = Except.ok ()) ∧
    ((∀ k, k < 3 → ros.waitForServer k = false) →
      connect ros = Except.error serverNotAvailable) := by
  classical
  rw [connect_eq]
  constructor
  · rintro ⟨k, hk, hready⟩
    rw [if_neg]
    intro hex
    rw [(hex k hk).1] at hready
    exact Bool.noConfusion hready
  · intro hfail
    rw [if_pos]
    exact fun k hk => ⟨hfail k hk, halive k⟩

/-- C1, witness: the second probe reports ready, and no probe ever does. -/
theorem createArmClient_ready_or_unavailable_witness :
    connect (Ros.ofProbes (fun k => decide (k = 1)) (fun _ => true)) = Except.ok () ∧
    connect (Ros.ofProbes (fun _ => false) (fun _ => true)) =
      Except.error serverNotAvailable :=
  ⟨(createArmClient_ready_or_unavailable
      (Ros.ofProbes (fun k => decide (k = 1)) (fun _ => true)) (fun _ => rfl)).1
      ⟨1, by decide, rfl⟩,
   (createArmClient_ready_or_unavailable
      (Ros.ofProbes (fun _ => false) (fun _ => true)) (fun _ => rfl)).2
      (fun _ _ => rfl)⟩

/-- C2, as stated, fails: the first probe fails and `ros::ok()` then reports
that the process should stop, and `createArmClient` returns normally, with the
very outcome it has when the first probe reports the server ready. -/
theorem createArmClient_stop_not_distinguished :
    StoppedWithin (Ros.ofProbes (fun _ => false) (fun _ => false)) ∧
    connect (Ros.ofProbes (fun _ => false) (fun _ => false)) = Except.ok () ∧
    connect (Ros.ofProbes (fun _ => false) (fun _ => false)) =
      connect (Ros.ofProbes (fun _ => true) (fun _ => true)) := by
  classical
  refine ⟨⟨0, by decide, rfl, rfl, fun j hj => absurd hj (Nat.not_lt_zero j)⟩, ?_, ?_⟩
  · rw [connect_eq, if_neg]
    intro hex
    exact Bool.noConfusion (hex 0 (by decide)).2
  · rw [connect_eq, connect_eq, if_neg, if_neg]
    · intro hex
      exact Bool.noConfusion (hex 0 (by decide)).1
    · intro hex
      exact Bool.noConfusion (hex 0 (by decide)).2

/-- C2, amended: when one of the first 3 probes fails and `ros::ok()` then
reports that the process should stop, `createArmClient` returns normally: it
throws nothing, and its outcome is the one of a successful connection. -/
theorem createArmClient_stop_returns {α : Type} (ros : Ros α) (hstop : StoppedWithin ros) :
    connect ros = Except.ok () := by
  classical
  obtain ⟨k, hk, _, hdead, _⟩ := hstop
  rw [connect_eq, if_neg]
  intro hex
  rw [(hex k hk).2] at hdead
  exact Bool.noConfusion hdead

/-- C2, amended, witness: two probes fail, then `ros::ok()` reports stop. -/
theorem createArmClient_stop_returns_witness :
    connect (Ros.ofProbes (fun _ => false) (fun k => decide (k < 1))) = Except.ok () :=
  createArmClient_stop_returns (Ros.ofProbes (fun _ => false) (fun k => decide (k < 1)))
    ⟨1, by decide, rfl, rfl, fun j hj => by
      have h0 : j = 0 := by omega
      subst h0
      exact ⟨rfl, rfl⟩⟩

/-- C3, the code at the failing input: when every probe fails and the node
stays alive, `createArmClient` probes 4 times, once more than
`max_iterations`, before it throws. -/
theorem createArmClient_probes_four_times :
    connectProbes (Ros.ofProbes (fun _ => false) (fun _ => true)) = 4 ∧
    max_iterations < connectProbes (Ros.ofProbes (fun _ => false) (fun _ => true)) ∧
    connect (Ros.ofProbes (fun _ => false) (fun _ => true)) =
      Except.error serverNotAvailable := by
  simp [connect, connectProbes, createArmClient, waitLoop, Ros.ofProbes, Node.fresh,
    Node.record, Node.callWaitForServer, Node.callOk, max_iterations, probeCount]

/-- C10: `createArmClient` throws exactly when its loop ends with
`iterations == max_iterations`; it never throws when the loop ends with fewer
failed probes counted; and there is an input in which three probes fail, the
fourth probe reports the server ready, and it still throws. -/
theorem createArmClient_throws_iff_counter {α : Type} (ros : Ros α) :
    (connect ros = Except.error serverNotAvailable ↔
      connectIterations ros = max_iterations) ∧
    (connectIterations ros < max_iterations → connect ros = Except.ok ()) ∧
    connectIterations ros ≤ max_iterations ∧
    (∃ r : Ros Unit,
      r.waitForServer 0 = false ∧ r.waitForServer 1 = false ∧
      r.waitForServer 2 = false ∧ r.waitForServer 3 = true ∧
      connectProbes r = 4 ∧ connect r = Except.error serverNotAvailable) := by
  refine ⟨?_, ?_, (createArmClient_iterations ros Node.fresh rfl rfl).2, ?_⟩
  · unfold connect connectIterations createArmClient
    simp only []
    split <;> simp_all
  · unfold connect connectIterations createArmClient
    simp only []
    split
    · intro hlt
      simp_all
    · intro _
      rfl
  · refine ⟨Ros.ofProbes (fun k => decide (k = 3)) (fun _ => true), rfl, rfl, rfl, rfl, ?_, ?_⟩
    · simp [connectProbes, createArmClient, waitLoop, Ros.ofProbes, Node.fresh,
        Node.record, Node.callWaitForServer, Node.callOk, max_iterations, probeCount]
    · simp [connect, createArmClient, waitLoop, Ros.ofProbes, Node.fresh,
        Node.record, Node.callWaitForServer, Node.callOk, max_iterations]

/-- C10, witness: only the first probe fails, the loop ends with one failed
probe counted, and `createArmClient` returns normally. -/
theorem createArmClient_throws_iff_counter_witness :
    connect (Ros.ofProbes (fun k => decide (0 < k)) (fun _ => true)) = Except.ok () :=
  (createArmClient_throws_iff_counter
    (Ros.ofProbes (fun k => decide (0 < k)) (fun _ => true))).2.1
    (by simp [connectIterations, createArmClient, waitLoop, Ros.ofProbes, Node.fresh,
        Node.record, Node.callWaitForServer, Node.callOk, max_iterations])

/-! ## Properties of the goal builder -/

/-- Resizing a vector to 3 leaves exactly three elements. -/
theorem resize_three {β : Type} (v : List β) (d : β) :
    ∃ a b c, resize v 3 d = [a, b, c] := by
  match v with
  | [] => exact ⟨d, d, d, rfl⟩
  | [x] => exact ⟨x, d, d, rfl⟩
  | [x, y] => exact ⟨x, y, d, rfl⟩
  | x :: y :: z :: rest => exact ⟨x, y, z, by simp [resize]⟩

theorem map_modifyAt_of_fixed {β γ : Type} (g : β → γ) (f : β → β)
    (hfix : ∀ x, g (f x) = g x) (v : List β) (i : Nat) :
    (modifyAt f v i).map g = v.map g := by
  induction v generalizing i with
  | nil => rfl
  | cons x xs ih =>
    cases i with
    | zero => simp [modifyAt, hfix]
    | succ i => simp [modifyAt, ih]

theorem map_modifyAt_of_const {β γ : Type} (g : β → γ) (f : β → β) (t : γ)
    (hconst : ∀ x, g (f x) = t) (v : List β) (i : Nat) :
    (modifyAt f v i).map g = (v.map g).set i t := by
  induction v generalizing i with
  | nil => rfl
  | cons x xs ih =>
    cases i with
    | zero => simp [modifyAt, hconst]
    | succ i => simp [modifyAt, ih]

theorem offsets_onPoint_fixed (goal : FollowJointTrajectoryGoal) (index : Nat)
    (f : JointTrajectoryPoint → JointTrajectoryPoint)
    (hfix : ∀ p, (f p).time_from_start = p.time_from_start) :
    offsets (onPoint goal index f) = offsets goal :=
  map_modifyAt_of_fixed (fun p : JointTrajectoryPoint => p.time_from_start) f hfix
    goal.trajectory.points index

theorem offsets_pushJointName (goal : FollowJointTrajectoryGoal) (name : String) :
    offsets (pushJointName goal name) = offsets goal := rfl

theorem offsets_resizePositions (goal : FollowJointTrajectoryGoal) (index n : Nat) :
    offsets (resizePositions goal index n) = offsets goal :=
  offsets_onPoint_fixed goal index _ (fun _ => rfl)

theorem offsets_setPosition (goal : FollowJointTrajectoryGoal) (index j : Nat) (x : ℚ) :
    offsets (setPosition goal index j x) = offsets goal :=
  offsets_onPoint_fixed goal index _ (fun _ => rfl)

theorem offsets_resizeVelocities (goal : FollowJointTrajectoryGoal) (index n : Nat) :
    offsets (resizeVelocities goal index n) = offsets goal :=
  offsets_onPoint_fixed goal index _ (fun _ => rfl)

theorem offsets_setVelocity (goal : FollowJointTrajectoryGoal) (index j : Nat) (x : ℚ) :
    offsets (setVelocity goal index j x) = offsets goal :=
  offsets_onPoint_fixed goal index _ (fun _ => rfl)

theorem offsets_fillVelocities (goal : FollowJointTrajectoryGoal) (index : Nat) :
    offsets (fillVelocities goal index) = offsets goal := by
  simp [fillVelocities, List.range, List.range.loop, offsets_setVelocity]

theorem offsets_setTimeFromStart (goal : FollowJointTrajectoryGoal) (index : Nat) (t : ℚ) :
    offsets (setTimeFromStart goal index t) = (offsets goal).set index t :=
  map_modifyAt_of_const (fun p : JointTrajectoryPoint => p.time_from_start)
    (fun p : JointTrajectoryPoint => { p with time_from_start := t }) t (fun _ => rfl)
    goal.trajectory.points index

theorem offsets_resizePoints (goal : FollowJointTrajectoryGoal) :
    ∃ a b c, offsets (resizePoints goal 3) = [a, b, c] := by
  obtain ⟨a, b, c, h⟩ := resize_three goal.trajectory.points JointTrajectoryPoint.default
  exact ⟨a.time_from_start, b.time_from_start, c.time_from_start, by
    simp [offsets, resizePoints, h]⟩

/-- C4: the goal `waypoints_arm_goal` builds from a freshly constructed goal
has exactly 4 joint names and exactly 3 waypoints, and the positions and the
velocities of every waypoint have length 4, the number of joint names. -/
theorem waypoints_arm_goal_shape :
    (waypoints_arm_goal FollowJointTrajectoryGoal.default).trajectory.joint_names.length = 4 ∧
    (waypoints_arm_goal FollowJointTrajectoryGoal.default).trajectory.points.length = 3 ∧
    ∀ p ∈ (waypoints_arm_goal FollowJointTrajectoryGoal.default).trajectory.points,
      p.positions.length = 4 ∧ p.velocities.length = 4 ∧
      p.positions.length =
        (waypoints_arm_goal FollowJointTrajectoryGoal.default).trajectory.joint_names.length ∧
      p.velocities.length =
        (waypoints_arm_goal FollowJointTrajectoryGoal.default).trajectory.joint_names.length := by
  have hnames :
      (waypoints_arm_goal FollowJointTrajectoryGoal.default).trajectory.joint_names.length = 4 :=
    rfl
  refine ⟨hnames, rfl, ?_⟩
  intro p hp
  rw [hnames]
  simp [waypoints_arm_goal, FollowJointTrajectoryGoal.default, JointTrajectoryPoint.default,
    pushJointName, resizePoints, resizePositions, setPosition, resizeVelocities,
    fillVelocities, setVelocity, setTimeFromStart, onPoint, modifyAt, resize, List.range,
    List.range.loop] at hp
  rcases hp with h | h | h <;> subst h <;> simp

/-- C5: whatever goal `waypoints_arm_goal` is given, the `time_from_start`
offsets of the waypoints it leaves are 8, 13 and 17, in this order, and each
waypoint has a strictly greater offset than the one before it. -/
theorem waypoints_arm_goal_times (goal : FollowJointTrajectoryGoal) :
    (waypoints_arm_goal goal).trajectory.points.map (fun p => p.time_from_start) =
      [8, 13, 17] ∧
    List.Chain' (fun s t => s < t)
      ((waypoints_arm_goal goal).trajectory.points.map (fun p => p.time_from_start)) := by
  have key : offsets (waypoints_arm_goal goal) = [8, 13, 17] := by
    obtain ⟨a, b, c, h⟩ := offsets_resizePoints
      (pushJointName (pushJointName (pushJointName (pushJointName goal "arm_1_joint")
        "arm_2_joint") "arm_3_joint") "arm_4_joint")
    unfold waypoints_arm_goal
    simp only [offsets_resizePositions, offsets_setPosition, offsets_resizeVelocities,
      offsets_fillVelocities, offsets_setTimeFromStart, h]
    norm_num
  unfold offsets at key
  rw [key]
  exact ⟨rfl, by norm_num⟩

/-! ## Properties of the telemetry handlers -/

theorem counted_succ (c : Int) (k : Nat) :
    counted c (k + 1) = counted (wrapInt32 (c + 1)) k := rfl

theorem wrapInt32_of_range (z : Int) (h0 : 0 ≤ z) (h1 : z < 2147483648) : wrapInt32 z = z := by
  unfold wrapInt32
  omega

theorem writeData_open {α : Type} (render : α → List Char) (data : List α) (text : List Char) :
    writeData render { is_open := true, content := text } data =
      { is_open := true, content := text ++ (data.map (fun v => render v ++ [' '])).flatten } := by
  induction data generalizing text with
  | nil => simp [writeData]
  | cons v vs ih =>
    have step : writeData render { is_open := true, content := text } (v :: vs) =
        writeData render { is_open := true, content := text ++ render v ++ [' '] } vs := by
      simp [writeData, OFStream.write]
    rw [step, ih]
    simp

theorem errorCallback_open {α : Type} (render : α → List Char) (data : List α) (g : Globals)
    (text : List Char) (hfile : g.error_file = { is_open := true, content := text }) :
    errorCallback render data g =
      { g with
        error_cont := wrapInt32 (g.error_cont + 1),
        error_file :=
          { is_open := true, content := text ++ written render g.error_cont [data] } } := by
  simp [errorCallback, hfile, OFStream.write, writeData_open, written]

theorem torqueCallback_open {α : Type} (render : α → List Char) (data : List α) (g : Globals)
    (text : List Char) (hfile : g.torque_file = { is_open := true, content := text }) :
    torqueCallback render data g =
      { g with
        torque_cont := wrapInt32 (g.torque_cont + 1),
        torque_file :=
          { is_open := true, content := text ++ written render g.torque_cont [data] } } := by
  simp [torqueCallback, hfile, OFStream.write, writeData_open, written]

theorem written_cons {α : Type} (render : α → List Char) (c : Int) (m : List α)
    (ms : List (List α)) :
    written render c (m :: ms) = written render c [m] ++ written render (wrapInt32 (c + 1)) ms := by
  simp [written]

/-- What a delivery sequence does to the globals when both files are open. -/
theorem deliverAll_open {α : Type} (render : α → List Char) (ds : List (Delivery α))
    (etext ttext : List Char) (ec tc : Int) :
    deliverAll render ds
        { error_file := { is_open := true, content := etext }, error_cont := ec,
          torque_file := { is_open := true, content := ttext }, torque_cont := tc } =
      { error_file :=
          { is_open := true, content := etext ++ written render ec (errorData ds) },
        error_cont := counted ec (errorData ds).length,
        torque_file :=
          { is_open := true, content := ttext ++ written render tc (torqueData ds) },
        torque_cont := counted tc (torqueData ds).length } := by
  induction ds generalizing etext ttext ec tc with
  | nil => simp [deliverAll, errorData, torqueData, written, counted]
  | cons d ds ih =>
    cases d with
    | error data =>
      have step : deliverAll render (Delivery.error data :: ds)
          { error_file := { is_open := true, content := etext }, error_cont := ec,
            torque_file := { is_open := true, content := ttext }, torque_cont := tc } =
          deliverAll render ds
            { error_file := { is_open := true, content := etext ++ written render ec [data] },
              error_cont := wrapInt32 (ec + 1),
              torque_file := { is_open := true, content := ttext }, torque_cont := tc } := by
        have hcb := errorCallback_open render data
          { error_file := { is_open := true, content := etext }, error_cont := ec,
            torque_file := { is_open := true, content := ttext }, torque_cont := tc } etext rfl
        simp only [deliverAll, List.foldl_cons, deliver, hcb]
      rw [step, ih]
      simp only [errorData, torqueData, List.length_cons, counted]
      rw [written_cons render ec data (errorData ds), List.append_assoc]
    | torque data =>
      have step : deliverAll render (Delivery.torque data :: ds)
          { error_file := { is_open := true, content := etext }, error_cont := ec,
            torque_file := { is_open := true, content := ttext }, torque_cont := tc } =
          deliverAll render ds
            { error_file := { is_open := true, content := etext }, error_cont := ec,
              torque_file :=
                { is_open := true, content := ttext ++ written render tc [data] },
              torque_cont := wrapInt32 (tc + 1) } := by
        have hcb := torqueCallback_open render data
          { error_file := { is_open := true, content := etext }, error_cont := ec,
            torque_file := { is_open := true, content := ttext }, torque_cont := tc } ttext rfl
        simp only [deliverAll, List.foldl_cons, deliver, hcb]
      rw [step, ih]
      simp only [errorData, torqueData, List.length_cons, counted]
      rw [written_cons render tc data (torqueData ds), List.append_assoc]

/-- Below `2^31` the counter counts and the bytes are the spaced lines. -/
theorem written_of_range {α : Type} (render : α → List Char) (k : Nat) (ms : List (List α))
    (hrange : k + ms.length < 2147483648) :
    written render (k : Int) ms = numbered (spacedLine render) k ms ∧
    counted (k : Int) ms.length = ((k + ms.length : Nat) : Int) := by
  induction ms generalizing k with
  | nil => simp [written, numbered, counted]
  | cons m ms ih =>
    have hlen : (m :: ms).length = ms.length + 1 := rfl
    have hw : wrapInt32 ((k : Int) + 1) = ((k + 1 : Nat) : Int) := by
      rw [wrapInt32_of_range] <;> omega
    have hnext := ih (k + 1) (by omega)
    have hdigits : renderInt ((k + 1 : Nat) : Int) = Nat.toDigits 10 (k + 1) := rfl
    constructor
    · simp only [written, numbered, hw, hnext.1, hdigits, spacedLine, spacedBody]
    · have hsum : k + 1 + ms.length = k + (ms.length + 1) := by omega
      rw [hlen, counted_succ, hw, hnext.2, hsum]

/-! ### Reading the written bytes back -/

theorem digitChar_not_space (d : Nat) (hd : d < 10) :
    (Nat.digitChar d).isWhitespace = false := by
  interval_cases d <;> rfl

theorem toDigitsCore_not_space (fuel n : Nat) (ds : List Char)
    (hds : ∀ c ∈ ds, c.isWhitespace = false) :
    ∀ c ∈ Nat.toDigitsCore 10 fuel n ds, c.isWhitespace = false := by
  induction fuel generalizing n ds with
  | zero => simpa [Nat.toDigitsCore] using hds
  | succ fuel ih =>
    have hcons : ∀ c ∈ Nat.digitChar (n % 10) :: ds, c.isWhitespace = false := by
      intro c hc
      rcases List.mem_cons.1 hc with h | h
      · rw [h]
        exact digitChar_not_space _ (Nat.mod_lt _ (by decide))
      · exact hds c h
    simp only [Nat.toDigitsCore]
    split
    · exact hcons
    · exact ih _ _ hcons

theorem toDigitsCore_ne_nil (fuel n : Nat) (ds : List Char) (hds : ds ≠ []) :
    Nat.toDigitsCore 10 fuel n ds ≠ [] := by
  induction fuel generalizing n ds with
  | zero => simpa [Nat.toDigitsCore] using hds
  | succ fuel ih =>
    simp only [Nat.toDigitsCore]
    split
    · exact List.cons_ne_nil _ _
    · exact ih _ _ (List.cons_ne_nil _ _)

theorem isToken_toDigits (n : Nat) : IsToken (Nat.toDigits 10 n) := by
  constructor
  · unfold Nat.toDigits
    simp only [Nat.toDigitsCore]
    split
    · exact List.cons_ne_nil _ _
    · exact toDigitsCore_ne_nil _ _ _ (List.cons_ne_nil _ _)
  · exact toDigitsCore_not_space _ _ _ (fun c hc => absurd hc (List.not_mem_nil c))

theorem ne_newline_of_not_space (c : Char) (h : c.isWhitespace = false) : c ≠ '\n' := by
  intro e
  rw [e] at h
  exact Bool.noConfusion h

theorem linesAux_line (cur l rest : List Char) (hl : ∀ c ∈ l, c ≠ '\n') :
    linesAux cur (l ++ '\n' :: rest) = (cur ++ l) :: linesAux [] rest := by
  induction l generalizing cur with
  | nil => simp [linesAux]
  | cons x xs ih =>
    have hx : x ≠ '\n' := hl x (List.mem_cons_self x xs)
    have hxs : ∀ c ∈ xs, c ≠ '\n' := fun c hc => hl c (List.mem_cons_of_mem x hc)
    simp [linesAux, hx, ih (cur ++ [x]) hxs]

theorem tokensAux_word (cur w rest : List Char) (c : Char) (hc : c.isWhitespace = true)
    (hw : ∀ x ∈ w, x.isWhitespace = false) (hne : cur ++ w ≠ []) :
    tokensAux cur (w ++ c :: rest) = (cur ++ w) :: tokensAux [] rest := by
  induction w generalizing cur with
  | nil =>
    have hcur : cur ≠ [] := by simpa using hne
    simp [tokensAux, hc, hcur]
  | cons x xs ih =>
    have hx : x.isWhitespace = false := hw x (List.mem_cons_self x xs)
    have hxs : ∀ y ∈ xs, y.isWhitespace = false := fun y hy => hw y (List.mem_cons_of_mem x hy)
    simp [tokensAux, hx, ih (cur ++ [x]) hxs]

theorem tokens_values {α : Type} (render : α → List Char) (hrender : ∀ v, IsToken (render v))
    (m : List α) :
    tokensAux [] (m.map (fun v => render v ++ [' '])).flatten = m.map render := by
  induction m with
  | nil => simp [tokensAux]
  | cons v vs ih =>
    have hstep := tokensAux_word [] (render v)
      (vs.map (fun v => render v ++ [' '])).flatten ' ' rfl (hrender v).2
      (by simpa using (hrender v).1)
    simp only [List.map_cons, List.flatten_cons, List.append_assoc, List.singleton_append]
    rw [hstep, ih]
    simp

theorem tokens_spacedBody {α : Type} (render : α → List Char)
    (hrender : ∀ v, IsToken (render v)) (i : Nat) (m : List α) :
    tokens (spacedBody render i m) = Nat.toDigits 10 i :: m.map render := by
  have hstep := tokensAux_word [] (Nat.toDigits 10 i)
    (m.map (fun v => render v ++ [' '])).flatten ' ' rfl (isToken_toDigits i).2
    (by simpa using (isToken_toDigits i).1)
  unfold tokens spacedBody
  simp only [List.append_assoc, List.singleton_append]
  rw [hstep, tokens_values render hrender m]
  simp

theorem spacedBody_no_newline {α : Type} (render : α → List Char)
    (hrender : ∀ v, IsToken (render v)) (i : Nat) (m : List α) :
    ∀ c ∈ spacedBody render i m, c ≠ '\n' := by
  intro c hc
  simp only [spacedBody, List.mem_append, List.mem_singleton, List.mem_flatten, List.mem_map] at hc
  rcases hc with (h | h) | ⟨l, ⟨v, _, hl⟩, hcl⟩
  · exact ne_newline_of_not_space c ((isToken_toDigits i).2 c h)
  · rw [h]
    decide
  · rw [← hl] at hcl
    rcases List.mem_append.1 hcl with h | h
    · exact ne_newline_of_not_space c ((hrender v).2 c h)
    · rw [List.mem_singleton.1 h]
      decide

theorem linesAux_numbered {α : Type} (render : α → List Char)
    (hrender : ∀ v, IsToken (render v)) (k : Nat) (ms : List (List α)) (rest : List Char) :
    linesAux [] (numbered (spacedLine render) k ms ++ rest) =
      bodies render k ms ++ linesAux [] rest := by
  induction ms generalizing k with
  | nil => simp [numbered, bodies]
  | cons m ms ih =>
    have hline := linesAux_line [] (spacedBody render (k + 1) m)
      (numbered (spacedLine render) (k + 1) ms ++ rest)
      (spacedBody_no_newline render hrender (k + 1) m)
    simp only [numbered, bodies, spacedLine, List.append_assoc, List.singleton_append,
      List.cons_append, List.nil_append]
    rw [hline, ih (k + 1)]
    simp

theorem bodies_length {α : Type} (render : α → List Char) (k : Nat) (ms : List (List α)) :
    (bodies render k ms).length = ms.length := by
  induction ms generalizing k with
  | nil => rfl
  | cons m ms ih => simp [bodies, ih]

theorem bodies_getElem {α : Type} (render : α → List Char) (k i : Nat) (ms : List (List α)) :
    (bodies render k ms)[i]? = ms[i]?.map (spacedBody render (k + i + 1)) := by
  induction ms generalizing k i with
  | nil => simp [bodies]
  | cons m ms ih =>
    cases i with
    | zero => simp [bodies]
    | succ i =>
      simp only [bodies, List.getElem?_cons_succ, ih]
      have hidx : k + 1 + i + 1 = k + (i + 1) + 1 := by omega
      rw [hidx]

/-- The spaced lines of `msgs`, numbered from 1, read back as claimed. -/
theorem logged_numbered {α : Type} (render : α → List Char)
    (hrender : ∀ v, IsToken (render v)) (msgs : List (List α)) :
    Logged render (numbered (spacedLine render) 0 msgs) msgs := by
  have hlines : textLines (numbered (spacedLine render) 0 msgs) = bodies render 0 msgs := by
    have h := linesAux_numbered render hrender 0 msgs []
    simpa [textLines, linesAux] using h
  constructor
  · rw [hlines, bodies_length]
  · intro i m hm
    rw [hlines, bodies_getElem, hm]
    simp [tokens_spacedBody render hrender]

theorem written_append {α : Type} (render : α → List Char) (c : Int)
    (ms ms' : List (List α)) :
    written render c (ms ++ ms') =
      written render c ms ++ written render (counted c ms.length) ms' := by
  induction ms generalizing c with
  | nil => simp [written, counted]
  | cons m ms ih =>
    rw [List.cons_append, written_cons, ih, written_cons render c m ms, List.length_cons,
      counted_succ, List.append_assoc]

theorem errorData_replicate {α : Type} (n : Nat) (data : List α) :
    errorData (List.replicate n (Delivery.error data)) = List.replicate n data ∧
    torqueData (List.replicate n (Delivery.error data)) = [] := by
  induction n with
  | zero => exact ⟨rfl, rfl⟩
  | succ n ih => simp [List.replicate_succ, errorData, torqueData, ih]

theorem globals_opened :
    Globals.opened =
      { error_file := { is_open := true, content := [] }, error_cont := 0,
        torque_file := { is_open := true, content := [] }, torque_cont := 0 } := rfl

/-- The globals after a delivery sequence that keeps both counters below
`2^31`, starting from zero counters and empty open files. -/
theorem deliverAll_opened {α : Type} (render : α → List Char) (ds : List (Delivery α))
    (herr : (errorData ds).length < 2147483648) (htor : (torqueData ds).length < 2147483648) :
    deliverAll render ds Globals.opened =
      { error_file :=
          { is_open := true, content := numbered (spacedLine render) 0 (errorData ds) },
        error_cont := ((errorData ds).length : Int),
        torque_file :=
          { is_open := true, content := numbered (spacedLine render) 0 (torqueData ds) },
        torque_cont := ((torqueData ds).length : Int) } := by
  have he := written_of_range render 0 (errorData ds) (by omega)
  have ht := written_of_range render 0 (torqueData ds) (by omega)
  simp only [Nat.cast_zero, Nat.zero_add] at he ht
  rw [globals_opened, deliverAll_open, he.1, he.2, ht.1, ht.2]
  simp

theorem isToken_renderUnit (v : Unit) : IsToken (renderUnit v) :=
  ⟨List.cons_ne_nil _ _, fun c hc => by
    rw [List.mem_singleton.1 hc]
    rfl⟩

/-- After `M` empty messages to `errorCallback`, where `M` is `INT_MAX + 1`,
the last line reads as the token `-M`, not as the index `M`. -/
theorem not_logged_past_int_max (M : Nat) (hM : M = 2147483648) :
    ¬ Logged renderUnit
      (deliverAll renderUnit (List.replicate M (Delivery.error [])) Globals.opened
        ).error_file.content
      (errorData (List.replicate M (Delivery.error ([] : List Unit)))) := by
  obtain ⟨N, hMN⟩ : ∃ N, M = N + 1 := ⟨2147483647, by omega⟩
  have hN : N = 2147483647 := by omega
  subst hMN
  intro hlogged
  have hrange := written_of_range renderUnit 0 (List.replicate N ([] : List Unit))
    (by rw [List.length_replicate]; omega)
  simp only [Nat.cast_zero, Nat.zero_add, List.length_replicate] at hrange
  have hwrap : wrapInt32 ((N : Int) + 1) = Int.negSucc N := by
    rw [Int.negSucc_eq]
    unfold wrapInt32
    omega
  have hlast : written renderUnit (N : Int) [[]] =
      ('-' :: Nat.toDigits 10 (N + 1)) ++ ' ' :: '\n' :: [] := by
    have hminus : renderInt (Int.negSucc N) = '-' :: Nat.toDigits 10 (N + 1) := rfl
    simp only [written, hwrap, hminus]
    simp
  have hcontent : (deliverAll renderUnit (List.replicate (N + 1) (Delivery.error []))
      Globals.opened).error_file.content =
      numbered (spacedLine renderUnit) 0 (List.replicate N []) ++
        (('-' :: Nat.toDigits 10 (N + 1)) ++ ' ' :: '\n' :: []) := by
    rw [globals_opened, deliverAll_open, (errorData_replicate _ _).1, List.replicate_succ',
      written_append, hrange.1, List.length_replicate, hrange.2, hlast]
    simp
  have hminus : ∀ c ∈ '-' :: Nat.toDigits 10 (N + 1), c.isWhitespace = false := by
    intro c hc
    rcases List.mem_cons.1 hc with h | h
    · rw [h]
      rfl
    · exact (isToken_toDigits _).2 c h
  have hlines : textLines (deliverAll renderUnit (List.replicate (N + 1) (Delivery.error []))
      Globals.opened).error_file.content =
      bodies renderUnit 0 (List.replicate N []) ++
        [('-' :: Nat.toDigits 10 (N + 1)) ++ [' ']] := by
    have hl := linesAux_line [] (('-' :: Nat.toDigits 10 (N + 1)) ++ [' ']) [] (by
      intro c hc
      rcases List.mem_append.1 hc with h | h
      · exact ne_newline_of_not_space c (hminus c h)
      · rw [List.mem_singleton.1 h]
        decide)
    rw [hcontent, textLines, linesAux_numbered _ isToken_renderUnit]
    simp only [List.append_assoc, List.singleton_append, List.nil_append] at hl
    rw [hl]
    simp [linesAux]
  have htokens : tokens (('-' :: Nat.toDigits 10 (N + 1)) ++ [' ']) =
      ['-' :: Nat.toDigits 10 (N + 1)] := by
    have ht := tokensAux_word [] ('-' :: Nat.toDigits 10 (N + 1)) [] ' ' rfl hminus
      (by simp)
    simp only [List.nil_append] at ht
    simp only [tokens]
    rw [ht]
    simp [tokensAux]
  have hclaim := hlogged.2 N [] (by
    rw [(errorData_replicate _ _).1]
    simp)
  rw [hlines, List.getElem?_append_right (by simp [bodies_length])] at hclaim
  simp only [bodies_length, List.length_replicate, Nat.sub_self, List.getElem?_cons_zero,
    Option.map_some', htokens, List.map_nil, Option.some.injEq, List.cons.injEq, and_true] at hclaim
  exact absurd (congrArg List.length hclaim) (by simp)

/-- C6, as stated, fails: after `2^31` messages to `errorCallback` the last
line of the file does not begin with the decimal index `2147483648`, which
an `int` counter cannot hold (it reads `-2147483648`). -/
theorem telemetry_index_out_of_int_range :
    (∀ v : Unit, IsToken (renderUnit v)) ∧
    ¬ Logged renderUnit
      (deliverAll renderUnit (List.replicate 2147483648 (Delivery.error [])) Globals.opened
        ).error_file.content
      (errorData (List.replicate 2147483648 (Delivery.error ([] : List Unit)))) :=
  ⟨isToken_renderUnit, not_logged_past_int_max 2147483648 rfl⟩

/-- C6, amended: for every interleaved delivery sequence with fewer than
`2^31` messages for each handler, starting from zero counters and empty
files, and renderings that are tokens: each file has one line per message
delivered to its handler, line `i` reads as the decimal index `i` followed by
the renderings of the values of message `i`, the counters count the
messages, and neither handler touches the counter or the file of the other. -/
theorem telemetry_logged {α : Type} (render : α → List Char)
    (hrender : ∀ v, IsToken (render v)) (ds : List (Delivery α))
    (herr : (errorData ds).length < 2147483648) (htor : (torqueData ds).length < 2147483648) :
    Logged render (deliverAll render ds Globals.opened).error_file.content (errorData ds) ∧
    Logged render (deliverAll render ds Globals.opened).torque_file.content (torqueData ds) ∧
    (deliverAll render ds Globals.opened).error_cont = ((errorData ds).length : Int) ∧
    (deliverAll render ds Globals.opened).torque_cont = ((torqueData ds).length : Int) ∧
    (∀ (g : Globals) (data : List α),
      (torqueCallback render data g).error_cont = g.error_cont ∧
      (torqueCallback render data g).error_file = g.error_file) ∧
    (∀ (g : Globals) (data : List α),
      (errorCallback render data g).torque_cont = g.torque_cont ∧
      (errorCallback render data g).torque_file = g.torque_file) := by
  rw [deliverAll_opened render ds herr htor]
  exact ⟨logged_numbered render hrender _, logged_numbered render hrender _, rfl, rfl,
    fun _ _ => ⟨rfl, rfl⟩, fun _ _ => ⟨rfl, rfl⟩⟩

/-- C6, amended, witness: two messages to `errorCallback` around one to
`torqueCallback`, values rendered as decimal numerals. -/
theorem telemetry_logged_witness :
    Logged (Nat.toDigits 10)
      (deliverAll (Nat.toDigits 10)
        [Delivery.error [1, 2], Delivery.torque [7], Delivery.error [5]]
        Globals.opened).error_file.content
      [[1, 2], [5]] :=
  (telemetry_logged (Nat.toDigits 10) isToken_toDigits
    [Delivery.error [1, 2], Delivery.torque [7], Delivery.error [5]]
    (by simp [errorData]) (by simp [torqueData])).1

/-- The text of a positive value given as a fraction in lowest terms. -/
theorem renderDouble_of_pos (x : ℚ) (n d : Nat) (hx : x = (n : ℚ) / (d : ℚ)) (hn : 0 < n)
    (hd : 0 < d) (hco : Nat.Coprime n d) : renderDouble x = renderPositive n d := by
  have hnum : x.num = (n : Int) := by
    have h : (((n : Int) : ℚ) / ((d : Int) : ℚ)).num = (n : Int) :=
      Rat.num_div_eq_of_coprime (by exact_mod_cast hd) (by simpa using hco)
    rw [hx]
    simpa using h
  have hden : x.den = d := by
    have h : ((((n : Int) : ℚ) / ((d : Int) : ℚ)).den : Int) = (d : Int) :=
      Rat.den_div_eq_of_coprime (by exact_mod_cast hd) (by simpa using hco)
    have h2 : (((n : Int) : ℚ) / ((d : Int) : ℚ)).den = d := by exact_mod_cast h
    rw [hx]
    simpa using h2
  have hpos : 0 < x := by
    rw [hx]
    positivity
  unfold renderDouble
  rw [if_neg (ne_of_gt hpos), if_neg (not_lt.2 (le_of_lt hpos)), hnum, hden]
  rfl

/-- The texts of the values of the example: `0.1`, `0.2`, `0.05`, and `0`
for the double `0.0`. -/
theorem renderDouble_example :
    renderDouble double_0_1 = "0.1".toList ∧ renderDouble double_0_2 = "0.2".toList ∧
    renderDouble double_0_05 = "0.05".toList ∧ renderDouble 0 = "0".toList := by
  refine ⟨?_, ?_, ?_, ?_⟩
  · rw [renderDouble_of_pos double_0_1 3602879701896397 36028797018963968
      (by unfold double_0_1; norm_num) (by decide) (by decide) (by norm_num)]
    decide
  · rw [renderDouble_of_pos double_0_2 3602879701896397 18014398509481984
      (by unfold double_0_2; norm_num) (by decide) (by decide) (by norm_num)]
    decide
  · rw [renderDouble_of_pos double_0_05 3602879701896397 72057594037927936
      (by unfold double_0_05; norm_num) (by decide) (by decide) (by norm_num)]
    decide
  · unfold renderDouble
    rw [if_pos rfl]
    rfl

/-- The bytes of the example in the format the handlers write. -/
theorem exampleMessages_spaced :
    numbered (spacedLine renderDouble) 0 exampleMessages =
      "1 0.1 0.2 \n2 0.05 \n3 0 0 0.1 \n".toList := by
  simp only [exampleMessages, numbered, spacedLine, spacedBody, List.map_cons, List.map_nil,
    renderDouble_example.1, renderDouble_example.2.1, renderDouble_example.2.2.1,
    renderDouble_example.2.2.2]
  decide

/-- The bytes of the example in the format with single spaces between the
tokens only. -/
theorem exampleMessages_joined :
    numbered (joinedLine renderDouble) 0 exampleMessages =
      "1 0.1 0.2\n2 0.05\n3 0 0 0.1\n".toList := by
  simp only [exampleMessages, numbered, joinedLine, List.map_cons, List.map_nil,
    renderDouble_example.1, renderDouble_example.2.1, renderDouble_example.2.2.1,
    renderDouble_example.2.2.2]
  decide

theorem errorData_map_error {α : Type} (ms : List (List α)) :
    errorData (ms.map Delivery.error) = ms ∧ torqueData (ms.map Delivery.error) = [] := by
  induction ms with
  | nil => exact ⟨rfl, rfl⟩
  | cons m ms ih => simp [errorData, torqueData, ih]

theorem torqueData_map_torque {α : Type} (ms : List (List α)) :
    torqueData (ms.map Delivery.torque) = ms ∧ errorData (ms.map Delivery.torque) = [] := by
  induction ms with
  | nil => exact ⟨rfl, rfl⟩
  | cons m ms ih => simp [errorData, torqueData, ih]

/-- C7, as stated, fails: for the messages `[0.1, 0.2]`, `[0.05]`,
`[0.0, 0.0, 0.1]` delivered to `errorCallback`, with the values rendered as
`std::ostream << double` renders them, the file holds
`"1 0.1 0.2 \n2 0.05 \n3 0 0 0.1 \n"`: a space stands between the last value
of each line and the newline.  These are neither the index and the rendered
values joined by single spaces, nor the bytes the claim gives for them. -/
theorem telemetry_bytes_not_joined :
    (deliverAll renderDouble (exampleMessages.map Delivery.error)
      Globals.opened).error_file.content = "1 0.1 0.2 \n2 0.05 \n3 0 0 0.1 \n".toList ∧
    (deliverAll renderDouble (exampleMessages.map Delivery.error)
      Globals.opened).error_file.content ≠ numbered (joinedLine renderDouble) 0 exampleMessages ∧
    (deliverAll renderDouble (exampleMessages.map Delivery.error)
      Globals.opened).error_file.content ≠ "1 0.1 0.2\n2 0.05\n3 0.0 0.0 0.1\n".toList := by
  have hbytes : (deliverAll renderDouble (exampleMessages.map Delivery.error)
      Globals.opened).error_file.content = "1 0.1 0.2 \n2 0.05 \n3 0 0 0.1 \n".toList := by
    rw [deliverAll_opened renderDouble (exampleMessages.map Delivery.error)
      (by rw [(errorData_map_error exampleMessages).1]; simp [exampleMessages])
      (by rw [(errorData_map_error exampleMessages).2]; simp)]
    simp only [(errorData_map_error exampleMessages).1]
    exact exampleMessages_spaced
  rw [hbytes, exampleMessages_joined]
  exact ⟨rfl, by decide, by decide⟩

/-- C7, amended: for every delivery sequence with fewer than `2^31` messages
for each handler and every rendering of a value, the bytes in each file are,
for `i = 1..N`, the decimal index `i` and the rendered values of message `i`,
each followed by one space, and then a newline. -/
theorem telemetry_bytes {α : Type} (render : α → List Char) (ds : List (Delivery α))
    (herr : (errorData ds).length < 2147483648) (htor : (torqueData ds).length < 2147483648) :
    (deliverAll render ds Globals.opened).error_file.content =
      numbered (spacedLine render) 0 (errorData ds) ∧
    (deliverAll render ds Globals.opened).torque_file.content =
      numbered (spacedLine render) 0 (torqueData ds) := by
  rw [deliverAll_opened render ds herr htor]
  exact ⟨rfl, rfl⟩

/-- C7, amended, witness: the messages `[0.1, 0.2]`, `[0.05]`,
`[0.0, 0.0, 0.1]` delivered to `torqueCallback`, rendered as
`std::ostream << double` renders them. -/
theorem telemetry_bytes_witness :
    (deliverAll renderDouble (exampleMessages.map Delivery.torque)
      Globals.opened).torque_file.content =
      numbered (spacedLine renderDouble) 0
        (torqueData (exampleMessages.map Delivery.torque)) ∧
    numbered (spacedLine renderDouble) 0 (torqueData (exampleMessages.map Delivery.torque)) =
      "1 0.1 0.2 \n2 0.05 \n3 0 0 0.1 \n".toList :=
  ⟨(telemetry_bytes renderDouble (exampleMessages.map Delivery.torque)
      (by rw [(torqueData_map_torque exampleMessages).2]; simp)
      (by rw [(torqueData_map_torque exampleMessages).1]; simp [exampleMessages])).2,
   by rw [(torqueData_map_torque exampleMessages).1]; exact exampleMessages_spaced⟩

/-! ## Properties of main -/

/-- The wait loop sends no goal. -/
theorem awaitCompletion_goalSent {α : Type} (render : α → List Char) (ros : Ros α)
    (fuel : Nat) (n : Node) (g : Globals) :
    goalSent (awaitCompletion render ros fuel n g).1.log = goalSent n.log := by
  induction fuel generalizing n g with
  | zero => rfl
  | succ fuel ih =>
    simp only [awaitCompletion]
    split
    · simp [Node.callIsDone, goalSent_append, goalSent]
    · split
      · rw [ih]
        simp [Node.callIsDone, Node.callOk, goalSent_append, goalSent]
      · simp [Node.callIsDone, Node.callOk, goalSent_append, goalSent]

theorem readyWithin_iff {α : Type} (ros : Ros α) :
    ReadyWithin ros ↔
      ros.waitForServer 0 = true ∨
      (ros.waitForServer 0 = false ∧ ros.ok 0 = true ∧ ros.waitForServer 1 = true) ∨
      (ros.waitForServer 0 = false ∧ ros.ok 0 = true ∧
        ros.waitForServer 1 = false ∧ ros.ok 1 = true ∧ ros.waitForServer 2 = true) := by
  constructor
  · rintro ⟨k, hk, hready, hbefore⟩
    interval_cases k
    · exact Or.inl hready
    · exact Or.inr (Or.inl ⟨(hbefore 0 (by decide)).1, (hbefore 0 (by decide)).2, hready⟩)
    · exact Or.inr (Or.inr ⟨(hbefore 0 (by decide)).1, (hbefore 0 (by decide)).2,
        (hbefore 1 (by decide)).1, (hbefore 1 (by decide)).2, hready⟩)
  · rintro (h | ⟨h0, o0, h⟩ | ⟨h0, o0, h1, o1, h⟩)
    · exact ⟨0, by decide, h, fun j hj => absurd hj (Nat.not_lt_zero j)⟩
    · refine ⟨1, by decide, h, fun j hj => ?_⟩
      interval_cases j
      exact ⟨h0, o0⟩
    · refine ⟨2, by decide, h, fun j hj => ?_⟩
      interval_cases j
      · exact ⟨h0, o0⟩
      · exact ⟨h1, o1⟩

theorem stoppedWithin_iff {α : Type} (ros : Ros α) :
    StoppedWithin ros ↔
      (ros.waitForServer 0 = false ∧ ros.ok 0 = false) ∨
      (ros.waitForServer 0 = false ∧ ros.ok 0 = true ∧
        ros.waitForServer 1 = false ∧ ros.ok 1 = false) ∨
      (ros.waitForServer 0 = false ∧ ros.ok 0 = true ∧
        ros.waitForServer 1 = false ∧ ros.ok 1 = true ∧
        ros.waitForServer 2 = false ∧ ros.ok 2 = false) := by
  constructor
  · rintro ⟨k, hk, hfail, hstop, hbefore⟩
    interval_cases k
    · exact Or.inl ⟨hfail, hstop⟩
    · exact Or.inr (Or.inl ⟨(hbefore 0 (by decide)).1, (hbefore 0 (by decide)).2, hfail, hstop⟩)
    · exact Or.inr (Or.inr ⟨(hbefore 0 (by decide)).1, (hbefore 0 (by decide)).2,
        (hbefore 1 (by decide)).1, (hbefore 1 (by decide)).2, hfail, hstop⟩)
  · rintro (⟨hf, hs⟩ | ⟨h0, o0, hf, hs⟩ | ⟨h0, o0, h1, o1, hf, hs⟩)
    · exact ⟨0, by decide, hf, hs, fun j hj => absurd hj (Nat.not_lt_zero j)⟩
    · refine ⟨1, by decide, hf, hs, fun j hj => ?_⟩
      interval_cases j
      exact ⟨h0, o0⟩
    · refine ⟨2, by decide, hf, hs, fun j hj => ?_⟩
      interval_cases j
      · exact ⟨h0, o0⟩
      · exact ⟨h1, o1⟩

/-- The probe budget is not used up exactly when a probe reports ready or a
stop is reported within the first three probes. -/
theorem not_exhausts_iff {α : Type} (ros : Ros α) :
    ¬ Exhausts ros ↔ ReadyWithin ros ∨ StoppedWithin ros := by
  rw [exhausts_iff, readyWithin_iff, stoppedWithin_iff]
  cases ros.waitForServer 0 <;> cases ros.ok 0 <;>
  cases ros.waitForServer 1 <;> cases ros.ok 1 <;>
  cases ros.waitForServer 2 <;> cases ros.ok 2 <;> simp

/-- The run of `main` when the clock check fails. -/
theorem main_clock_invalid {α : Type} (render : α → List Char) (ros : Ros α) (fuel : Nat)
    (hclock : ros.waitForValid = false) :
    main render ros fuel =
      { node := Node.fresh.record (Event.waitForValid 10 false),
        globals := Globals.initial,
        ending := some (ProcessEnd.returned EXIT_FAILURE) } := by
  simp [main, hclock]

/-- The run of `main` when the clock is valid and the probe budget is used up. -/
theorem main_unavailable {α : Type} (render : α → List Char) (ros : Ros α) (fuel : Nat)
    (hclock : ros.waitForValid = true) (hex : Exhausts ros) :
    main render ros fuel =
      { node := (createArmClient ros (Node.fresh.record (Event.waitForValid 10 true))).2.1,
        globals := Globals.initial,
        ending := some (ProcessEnd.terminated serverNotAvailable) } := by
  have hout := createArmClient_outcome ros (Node.fresh.record (Event.waitForValid 10 true))
    rfl rfl
  rw [if_pos ((exhausts_iff ros).1 hex)] at hout
  unfold main
  simp only [hclock]
  generalize createArmClient ros (Node.fresh.record (Event.waitForValid 10 true)) = r at hout
  obtain ⟨it, n, res⟩ := r
  simp only at hout
  subst hout
  simp

/-- The log of `main` holds a `sendGoal` when the clock is valid and the
probe budget is not used up. -/
theorem main_connected {α : Type} (render : α → List Char) (ros : Ros α) (fuel : Nat)
    (hclock : ros.waitForValid = true) (hex : ¬ Exhausts ros) :
    goalSent (main render ros fuel).node.log = true := by
  have hout := createArmClient_outcome ros (Node.fresh.record (Event.waitForValid 10 true))
    rfl rfl
  rw [if_neg (fun h => hex ((exhausts_iff ros).2 h))] at hout
  unfold main
  simp only [hclock]
  generalize createArmClient ros (Node.fresh.record (Event.waitForValid 10 true)) = r at hout
  obtain ⟨it, n, res⟩ := r
  simp only at hout
  subst hout
  simp only [Bool.not_true, Bool.false_eq_true, if_false]
  split <;>
    simp [Node.record, goalSent_append, goalSent, awaitCompletion_goalSent]

/-- C8: when startup fails, because the clock is not valid within the wait or
because the connector uses up its probe budget, `main` ends with a failure
status, sends no goal and opens neither log file; when the clock check
fails, no readiness probe is made. -/
theorem main_startup_failure {α : Type} (render : α → List Char) (ros : Ros α) (fuel : Nat)
    (hfail : ros.waitForValid = false ∨ Exhausts ros) :
    (∃ e, (main render ros fuel).ending = some e ∧ e.failed = true) ∧
    goalSent (main render ros fuel).node.log = false ∧
    fileOpened (main render ros fuel).node.log = false ∧
    (main render ros fuel).globals.error_file.is_open = false ∧
    (main render ros fuel).globals.torque_file.is_open = false ∧
    (ros.waitForValid = false → probeCount (main render ros fuel).node.log = 0) := by
  cases hclock : ros.waitForValid with
  | false =>
    rw [main_clock_invalid render ros fuel hclock]
    exact ⟨⟨_, rfl, rfl⟩, rfl, rfl, rfl, rfl, fun _ => rfl⟩
  | true =>
    have hex : Exhausts ros := by
      rcases hfail with h | h
      · rw [hclock] at h
        exact Bool.noConfusion h
      · exact h
    have hlog := createArmClient_log ros (Node.fresh.record (Event.waitForValid 10 true))
      rfl rfl
    rw [main_unavailable render ros fuel hclock hex]
    refine ⟨⟨_, rfl, rfl⟩, ?_, ?_, rfl, rfl, fun h => Bool.noConfusion h⟩
    · rw [hlog.2.1]
      rfl
    · rw [hlog.2.2]
      rfl

/-- C8, witness: a clock that never becomes valid, and a server that never
comes up while the node stays alive. -/
theorem main_startup_failure_witness :
    ((main renderUnit Ros.noClock 1).ending = some (ProcessEnd.returned EXIT_FAILURE) ∧
      probeCount (main renderUnit Ros.noClock 1).node.log = 0) ∧
    (goalSent (main renderUnit (Ros.ofProbes (fun _ => false) (fun _ => true)) 1).node.log =
        false ∧
      fileOpened (main renderUnit (Ros.ofProbes (fun _ => false) (fun _ => true)) 1).node.log =
        false) :=
  ⟨⟨by rw [main_clock_invalid renderUnit Ros.noClock 1 rfl],
    (main_startup_failure renderUnit Ros.noClock 1 (Or.inl rfl)).2.2.2.2.2 rfl⟩,
   ⟨(main_startup_failure renderUnit (Ros.ofProbes (fun _ => false) (fun _ => true)) 1
      (Or.inr (fun _ _ => ⟨rfl, rfl⟩))).2.1,
    (main_startup_failure renderUnit (Ros.ofProbes (fun _ => false) (fun _ => true)) 1
      (Or.inr (fun _ _ => ⟨rfl, rfl⟩))).2.2.1⟩⟩

theorem probeReady_append (l r : List Event) :
    probeReady (l ++ r) = (probeReady l || probeReady r) := by
  induction l with
  | nil => simp [probeReady]
  | cons e es ih =>
    cases e with
    | waitForServer timeout ready => cases ready <;> simp [probeReady, ih]
    | _ => simp [probeReady, ih]

/-- C9, as stated, fails: the first probe fails, `ros::ok()` reports that the
process should stop, and `main` sends the goal although no probe reported the
server ready, and then ends with the success status. -/
theorem main_dispatches_after_stop :
    goalSent (main renderUnit Ros.stopped 1).node.log = true ∧
    probeReady (main renderUnit Ros.stopped 1).node.log = false ∧
    (main renderUnit Ros.stopped 1).ending = some (ProcessEnd.returned EXIT_SUCCESS) ∧
    (ProcessEnd.returned EXIT_SUCCESS).failed = false := by
  refine ⟨?_, ?_, ?_, rfl⟩ <;>
    simp [main, createArmClient, waitLoop, awaitCompletion, Ros.stopped, Node.fresh,
      Node.record, Node.callWaitForServer, Node.callOk, Node.callIsDone, max_iterations,
      goalSent_append, goalSent, probeReady_append, probeReady]

/-- When the clock check fails or the probe budget is used up, `main` ends
in failure and its log holds no `sendGoal`. -/
theorem main_no_dispatch {α : Type} (render : α → List Char) (ros : Ros α) (fuel : Nat)
    (hfail : ros.waitForValid = false ∨ Exhausts ros) :
    (∃ e, (main render ros fuel).ending = some e ∧ e.failed = true) ∧
    goalSent (main render ros fuel).node.log = false := by
  cases hclock : ros.waitForValid with
  | false =>
    rw [main_clock_invalid render ros fuel hclock]
    exact ⟨⟨_, rfl, rfl⟩, rfl⟩
  | true =>
    have hex : Exhausts ros := by
      rcases hfail with h | h
      · rw [hclock] at h
        exact Bool.noConfusion h
      · exact h
    have hlog := createArmClient_log ros (Node.fresh.record (Event.waitForValid 10 true))
      rfl rfl
    rw [main_unavailable render ros fuel hclock hex]
    refine ⟨⟨_, rfl, rfl⟩, ?_⟩
    rw [hlog.2.1]
    rfl

/-- C9, amended: `main` sends the goal exactly when the clock is valid and
`createArmClient` returns normally, that is when one of the first three
probes reports the server ready or `ros::ok()` reports a stop after one of
them failed; in every other case `main` ends in failure and sends no goal. -/
theorem main_dispatch_iff {α : Type} (render : α → List Char) (ros : Ros α) (fuel : Nat) :
    (goalSent (main render ros fuel).node.log = true ↔
      ros.waitForValid = true ∧ (ReadyWithin ros ∨ StoppedWithin ros)) ∧
    (¬ (ros.waitForValid = true ∧ (ReadyWithin ros ∨ StoppedWithin ros)) →
      (∃ e, (main render ros fuel).ending = some e ∧ e.failed = true) ∧
      goalSent (main render ros fuel).node.log = false) := by
  cases hclock : ros.waitForValid with
  | false =>
    have hfail := main_no_dispatch render ros fuel (Or.inl hclock)
    refine ⟨?_, fun _ => hfail⟩
    rw [hfail.2]
    simp
  | true =>
    by_cases hex : Exhausts ros
    · have hfail := main_no_dispatch render ros fuel (Or.inr hex)
      have hnot : ¬ (ReadyWithin ros ∨ StoppedWithin ros) :=
        fun h => (not_exhausts_iff ros).2 h hex
      refine ⟨?_, fun _ => hfail⟩
      rw [hfail.2]
      simp [hnot]
    · have hsent := main_connected render ros fuel hclock hex
      have hok : ReadyWithin ros ∨ StoppedWithin ros := (not_exhausts_iff ros).1 hex
      refine ⟨?_, fun h => absurd ⟨rfl, hok⟩ h⟩
      rw [hsent]
      simp [hok]

/-- C9, amended, witness: the second probe reports the server ready and the
goal is sent; the clock never becomes valid and no goal is sent. -/
theorem main_dispatch_iff_witness :
    goalSent (main renderUnit (Ros.ofProbes (fun k => decide (k = 1)) (fun _ => true)) 1
      ).node.log = true ∧
    goalSent (main renderUnit Ros.noClock 1).node.log = false :=
  ⟨(main_dispatch_iff renderUnit (Ros.ofProbes (fun k => decide (k = 1)) (fun _ => true)) 1).1.2
      ⟨rfl, Or.inl ⟨1, by decide, rfl, fun j hj => by
        have h0 : j = 0 := by omega
        subst h0
        exact ⟨rfl, rfl⟩⟩⟩,
   ((main_dispatch_iff renderUnit Ros.noClock 1).2
      (fun h => Bool.noConfusion h.1)).2⟩

end RunTrajControl
